import Mathlib

/-!
# Verification of the Ma2tA auction bidding subsystem

Shallow embedding of the auction bidding core of the Ma2tA marketplace
backend: the bid validator (`gallery/api/serializers.py`,
`PlaceBidSerializer`), the bid placement endpoint
(`gallery/api/views.py`, `AuctionItemViewSet.place_bid`) and the
bid-visibility endpoints (`AuctionItemViewSet.bids`,
`AuctionItemDetailSerializer.get_bids`).

Monetary amounts are modelled as exact rationals (`ℚ`): the API declares
them as decimals with a fixed number of fractional digits, and the
increment factor `1.05` is the exact fraction `21/20`.  Database rows are
modelled as Lean lists, timestamps as integers, and the Django/DRF
request cycle as explicit state passing: a request handler receives the
current database value and returns the updated one together with the
HTTP response.  A serializer `ValidationError` raised under
`raise_exception=True` surfaces as an HTTP 400 response; a successful
`place_bid` returns 201.
-/

namespace Ma2ta

/-- Status of an `AuctionEvent` row (the status choices used by the
gallery API code: `planned`, `upcoming`, `active`, `ended`, `canceled`). -/
inductive EventStatus
  | planned
  | upcoming
  | active
  | ended
  | canceled
deriving DecidableEq, Repr

/-- Status of an `AuctionItem` row (`pending`, `active`, `sold`,
`unsold`, `withdrawn`). -/
inductive ItemStatus
  | pending
  | active
  | sold
  | unsold
  | withdrawn
deriving DecidableEq, Repr

/-- A user, reduced to the attributes the auction endpoints consult:
its primary key, `is_staff`, and `is_authenticated`. -/
structure User where
  id : Nat
  is_staff : Bool
  is_authenticated : Bool
deriving DecidableEq, Repr

/-- A gallery, reduced to its owner (a user id). -/
structure Gallery where
  owner : Nat
deriving DecidableEq, Repr

/-- An `AuctionEvent` row.  `gallery` is nullable (`null=True` on the
foreign key): an event need not belong to a gallery. -/
structure AuctionEvent where
  status : EventStatus
  start_datetime : Int
  end_datetime : Int
  gallery : Option Gallery
deriving DecidableEq, Repr

/-- An `AuctionItem` row.  `current_bid` is nullable: `none` means no
bid has been accepted yet.  The parent event is embedded directly,
mirroring the `item.auction` foreign-key dereference. -/
structure AuctionItem where
  id : Nat
  auction : AuctionEvent
  lot_number : Nat
  start_price : ℚ
  reserve_price : Option ℚ
  current_bid : Option ℚ
  winning_bid : Option ℚ
  total_bids : Nat
  status : ItemStatus
deriving DecidableEq, Repr

/-- An `AuctionBid` row. -/
structure AuctionBid where
  auction_item : Nat
  user : Nat
  amount : ℚ
  placed_at : Int
  is_winner : Bool
  is_auto : Bool
deriving DecidableEq, Repr

/-- The rejection reasons of the bid validator, named as in the spec.
`INVALID_AMOUNT` is the field-level `validate_amount` failure,
`BID_TOO_LOW` covers both the below-start-price and the
below-minimum-increment rejections, `ITEM_NOT_FOUND` is the
`AuctionItem.DoesNotExist` branch.  All five are raised as
`serializers.ValidationError`. -/
inductive BidError
  | AUCTION_NOT_ACTIVE
  | ITEM_NOT_ACTIVE
  | INVALID_AMOUNT
  | BID_TOO_LOW
  | ITEM_NOT_FOUND
deriving DecidableEq, Repr

/-- The persisted auction state touched by the bidding endpoints:
the `AuctionItem` table and the `AuctionBid` table. -/
structure DB where
  items : List AuctionItem
  bids : List AuctionBid
deriving DecidableEq, Repr

/-- `AuctionItem.objects.get(id=item_id)` on the item table: the first
row with the given primary key, if any. -/
def itemOf (items : List AuctionItem) (item_id : Nat) : Option AuctionItem :=
  items.find? (fun it => it.id == item_id)

/-- `PlaceBidSerializer.validate_amount` (serializers.py lines 267-271):
the field-level check, run by the framework before object-level
validation; rejects non-positive amounts. -/
def validate_amount (value : ℚ) : Except BidError ℚ :=
  if value ≤ 0 then .error .INVALID_AMOUNT else .ok value

/-- Python truthiness of the nullable decimal `item.current_bid`
(serializers.py line 290, `if item.current_bid:`): both `None` and a
zero value are falsy. -/
def bidTruthy : Option ℚ → Bool
  | none => false
  | some c => decide (c ≠ 0)

/-- The per-item checks of `PlaceBidSerializer.validate`
(serializers.py lines 281-299), in source order: item status, then
event status, then the amount floor.  When `current_bid` is truthy the
floor is `current_bid * 1.05`; otherwise it is `start_price`. -/
def validateItem (item : AuctionItem) (amount : ℚ) : Except BidError Unit :=
  if item.status ≠ ItemStatus.active then .error .ITEM_NOT_ACTIVE
  else if item.auction.status ≠ EventStatus.active then .error .AUCTION_NOT_ACTIVE
  else if bidTruthy item.current_bid then
    let min_allowed_bid := item.current_bid.getD 0 * (105 / 100)
    if amount < min_allowed_bid then .error .BID_TOO_LOW else .ok ()
  else if amount < item.start_price then .error .BID_TOO_LOW
  else .ok ()

/-- `PlaceBidSerializer.validate` (serializers.py lines 273-306): look
the item up (`DoesNotExist` becomes `ITEM_NOT_FOUND`), run the per-item
checks, and on success return the item (stored into
`attrs['auction_item']`). -/
def PlaceBidSerializer.validate (items : List AuctionItem) (item_id : Nat) (amount : ℚ) :
    Except BidError AuctionItem :=
  match itemOf items item_id with
  | none => .error .ITEM_NOT_FOUND
  | some item =>
    match validateItem item amount with
    | .error e => .error e
    | .ok _ => .ok item

/-- The whole serializer run (`serializer.is_valid(raise_exception=True)`):
field-level validation first, then object-level `validate`. -/
def run_validation (items : List AuctionItem) (item_id : Nat) (amount : ℚ) :
    Except BidError AuctionItem :=
  match validate_amount amount with
  | .error e => .error e
  | .ok a => PlaceBidSerializer.validate items item_id a

instance exceptDecEq {ε α : Type} [DecidableEq ε] [DecidableEq α] :
    DecidableEq (Except ε α) := fun a b =>
  match a, b with
  | .error x, .error y =>
    if h : x = y then isTrue (by rw [h]) else isFalse (by simp [h])
  | .error _, .ok _ => isFalse (by simp)
  | .ok _, .error _ => isFalse (by simp)
  | .ok x, .ok y =>
    if h : x = y then isTrue (by rw [h]) else isFalse (by simp [h])

/-- An HTTP response of the bid placement endpoint: a status code with
either the serialized accepted bid or the validation error. -/
structure BidResponse where
  status_code : Nat
  body : Except BidError AuctionBid
deriving DecidableEq, Repr

/-- `AuctionItemViewSet.place_bid` (views.py lines 251-275): validate,
and on success create the `AuctionBid` row, set
`item.current_bid = amount`, increment `item.total_bids`, save, and
answer `201 Created` with the serialized bid.  A `ValidationError`
raised by the serializer surfaces as a 400 response before any write is
attempted.  `now` is the server clock; validation never consults it. -/
def place_bid (now : Int) (db : DB) (user : Nat) (auction_item_id : Nat) (amount : ℚ) :
    DB × BidResponse :=
  match run_validation db.items auction_item_id amount with
  | .error e => (db, ⟨400, .error e⟩)
  | .ok item =>
    let bid : AuctionBid :=
      { auction_item := item.id, user := user, amount := amount,
        placed_at := now, is_winner := false, is_auto := false }
    let updated : AuctionItem :=
      { item with current_bid := some amount, total_bids := item.total_bids + 1 }
    ({ items := db.items.map fun it => if it.id == item.id then updated else it,
       bids := db.bids ++ [bid] },
     ⟨201, .ok bid⟩)

/-- The bids recorded for one item (`item.bids.all()`), in insertion
order. -/
def bidsFor (bids : List AuctionBid) (auction_item_id : Nat) : List AuctionBid :=
  bids.filter (fun b => b.auction_item == auction_item_id)

/-- `order_by('-amount')`: the bids sorted by amount, largest first. -/
def sortByAmountDesc (bids : List AuctionBid) : List AuctionBid :=
  bids.mergeSort (fun a b => decide (b.amount ≤ a.amount))

/-- The restricted branch of the `bids` handler (views.py lines
236-248): the current winning bid, if any, followed by the requester's
own non-winning bids. -/
def restrictedBids (item : AuctionItem) (bids : List AuctionBid) (u : User) :
    List AuctionBid :=
  let item_bids := bidsFor bids item.id
  let user_bids := item_bids.filter (fun b => b.user == u.id)
  let winner_bid := item_bids.find? (fun b => b.is_winner)
  (match winner_bid with
   | some w => [w]
   | none => []) ++ user_bids.filter (fun b => !b.is_winner)

/-- Handler body of `AuctionItemViewSet.bids` (views.py lines 225-249).
Staff, or the owner of the item's auction's gallery when that gallery
exists (the Python condition `item.auction.gallery and request.user ==
item.auction.gallery.owner` guards the dereference), see the full
history ordered by amount descending; anyone else gets the restricted
list. -/
def bids_action (item : AuctionItem) (bids : List AuctionBid) (u : User) :
    List AuctionBid :=
  if u.is_staff || (match item.auction.gallery with
                    | some g => u.id == g.owner
                    | none => false) then
    sortByAmountDesc (bidsFor bids item.id)
  else
    restrictedBids item bids u

/-- HTTP outcome of `GET /auction-items/{id}/bids/`: 403 from the
permission layer, or 200 with a bid list. -/
inductive BidsHttp
  | forbidden
  | ok (body : List AuctionBid)
deriving DecidableEq, Repr

/-- The full `bids` endpoint: `get_permissions` (views.py lines
217-223) falls through to `IsAdminUser` for the `bids` action, so the
handler only runs for staff; every other requester receives 403. -/
def bids_endpoint (item : AuctionItem) (bids : List AuctionBid) (u : User) :
    BidsHttp :=
  if u.is_staff then .ok (bids_action item bids u) else .forbidden

/-- `AuctionItemDetailSerializer.get_bids` (serializers.py lines
192-211).  The requester is `none` when no request is in the serializer
context.  Returns `none` exactly when the Python code raises
`AttributeError`: for a non-staff requester the condition
`request.user == obj.auction.gallery.owner` dereferences
`gallery.owner` with no null guard. -/
def get_bids (item : AuctionItem) (bids : List AuctionBid) (request : Option User) :
    Option (List AuctionBid) :=
  let item_bids := bidsFor bids item.id
  match request with
  | some u =>
    if u.is_staff then some (sortByAmountDesc item_bids)
    else
      match item.auction.gallery with
      | none => none
      | some g =>
        if u.id == g.owner then some (sortByAmountDesc item_bids)
        else
          let user_bids :=
            if u.is_authenticated then item_bids.filter (fun b => b.user == u.id) else []
          let winner_bid := item_bids.find? (fun b => b.is_winner)
          some ((match winner_bid with
                 | some w => [w]
                 | none => []) ++ user_bids.filter (fun b => !b.is_winner))
  | none =>
    some (match item_bids.find? (fun b => b.is_winner) with
          | some w => [w]
          | none => [])

/-! ## Sequential runs of the bid placement endpoint

`runBidsOn` processes a list of `(user, amount)` requests against one
item, one full request handler at a time, the way a single worker
serves the endpoint. -/

def runBidsOn (now : Int) (auction_item_id : Nat) (db : DB) :
    List (Nat × ℚ) → DB
  | [] => db
  | (u, amt) :: rest =>
    runBidsOn now auction_item_id (place_bid now db u auction_item_id amt).1 rest

/-- The amounts of the accepted bids recorded for one item, in
acceptance order. -/
def acceptedAmounts (db : DB) (auction_item_id : Nat) : List ℚ :=
  (bidsFor db.bids auction_item_id).map (fun b => b.amount)

/-- The bid-aggregate invariant of one `AuctionItem`: accepted amounts
are positive and strictly increasing in acceptance order,
`current_bid` equals the amount of the most recently accepted bid
(`none` when there is none), and `total_bids` counts the accepted
bids. -/
def ItemInv (db : DB) (auction_item_id : Nat) : Prop :=
  (∀ a ∈ acceptedAmounts db auction_item_id, 0 < a) ∧
  (acceptedAmounts db auction_item_id).Chain' (· < ·) ∧
  (match itemOf db.items auction_item_id with
   | some item =>
     item.current_bid = (acceptedAmounts db auction_item_id).getLast? ∧
     item.total_bids = (acceptedAmounts db auction_item_id).length
   | none => acceptedAmounts db auction_item_id = [])

/-! ## Interleaved execution of two concurrent `place_bid` handlers

The endpoint wraps no transaction and takes no row lock: a handler's
execution splits into a read-and-validate phase
(`AuctionItem.objects.get` plus serializer validation, against a
snapshot of the row) and a later write phase (`AuctionBid.objects.create`
plus `item.save()`, which writes back the handler's in-memory instance).
Interleavings of these phases model concurrent requests. -/

/-- The state a request handler holds between its phases: the item
instance it read, the bidder, and the validated amount. -/
structure PendingBid where
  item : AuctionItem
  user : Nat
  amount : ℚ
deriving DecidableEq, Repr

/-- Read-and-validate phase of one `place_bid` handler, with no lock
and no transaction. -/
def readValidate (db : DB) (user auction_item_id : Nat) (amount : ℚ) :
    Option PendingBid :=
  match run_validation db.items auction_item_id amount with
  | .ok item => some ⟨item, user, amount⟩
  | .error _ => none

/-- Write phase of one `place_bid` handler: create the bid row and save
the handler's in-memory item instance, whose `current_bid` and
`total_bids` are computed from the snapshot it read. -/
def commitBid (now : Int) (db : DB) (p : PendingBid) : DB :=
  let bid : AuctionBid :=
    { auction_item := p.item.id, user := p.user, amount := p.amount,
      placed_at := now, is_winner := false, is_auto := false }
  { items := db.items.map fun it =>
      if it.id == p.item.id then
        { p.item with current_bid := some p.amount, total_bids := p.item.total_bids + 1 }
      else it,
    bids := db.bids ++ [bid] }

instance decItemInv (db : DB) (iid : Nat) : Decidable (ItemInv db iid) :=
  match h : itemOf db.items iid with
  | some item =>
    decidable_of_iff ((∀ a ∈ acceptedAmounts db iid, 0 < a) ∧
      (acceptedAmounts db iid).Chain' (· < ·) ∧
      item.current_bid = (acceptedAmounts db iid).getLast? ∧
      item.total_bids = (acceptedAmounts db iid).length)
      (by unfold ItemInv; rw [h])
  | none =>
    decidable_of_iff ((∀ a ∈ acceptedAmounts db iid, 0 < a) ∧
      (acceptedAmounts db iid).Chain' (· < ·) ∧
      acceptedAmounts db iid = [])
      (by unfold ItemInv; rw [h])

/-! ## Concrete fixtures -/

/-- Fixture: an active auction event with no owning gallery, running
from time 0 to time 100. -/
def activeEvent : AuctionEvent :=
  { status := .active, start_datetime := 0, end_datetime := 100, gallery := none }

/-- Fixture: an active item (id 7) with a standing bid of 1,000,000 and
a start price of 500,000. -/
def itemStanding : AuctionItem :=
  { id := 7, auction := activeEvent, lot_number := 1, start_price := 500000,
    reserve_price := none, current_bid := some 1000000, winning_bid := none,
    total_bids := 3, status := .active }

/-- Fixture: the standing item with a recorded `current_bid` of zero. -/
def itemZeroBid : AuctionItem := { itemStanding with current_bid := some 0 }

/-- Fixture: an ended auction event. -/
def endedEvent : AuctionEvent :=
  { activeEvent with status := EventStatus.ended }

/-- Fixture: a pending item inside an ended event. -/
def itemBothInactive : AuctionItem :=
  { itemStanding with status := ItemStatus.pending, auction := endedEvent }

/-- Fixture: an active item inside an ended event. -/
def itemEventInactive : AuctionItem :=
  { itemStanding with auction := endedEvent }

/-- Fixture: a one-item table holding the standing item. -/
def dbStanding : DB := { items := [itemStanding], bids := [] }

/-- Fixture: the standing item before any bid was accepted. -/
def itemFresh : AuctionItem :=
  { itemStanding with current_bid := none, total_bids := 0 }

/-- Fixture: a one-item table holding the fresh item. -/
def dbFresh : DB := { items := [itemFresh], bids := [] }

/-- Fixture: the standing item inside an event owned by the gallery of
user 5. -/
def itemWithGallery : AuctionItem :=
  { itemStanding with auction := { activeEvent with gallery := some ⟨5⟩ } }

/-- Fixture: user 5, the owner of that gallery, not staff. -/
def galleryOwnerUser : User := { id := 5, is_staff := false, is_authenticated := true }

/-- Fixture: a staff user. -/
def staffUser : User := { id := 1, is_staff := true, is_authenticated := true }

/-- Fixture: an ordinary authenticated bidder. -/
def bidderUser : User := { id := 9, is_staff := false, is_authenticated := true }

/-- Fixture: two recorded bids on item 7, the larger one the winner. -/
def bidsFixture : List AuctionBid :=
  [ { auction_item := 7, user := 9, amount := 1000000, placed_at := 10,
      is_winner := false, is_auto := false },
    { auction_item := 7, user := 13, amount := 1100000, placed_at := 20,
      is_winner := true, is_auto := false } ]

/-- Fixture: the standing item with `current_bid` 1,800,000 (the race
scenario of the spec: the 5% minimum is 1,890,000). -/
def item8 : AuctionItem := { itemStanding with current_bid := some 1800000 }

/-- Fixture: a one-item table for the race scenario. -/
def db8 : DB := { items := [item8], bids := [] }

/-! ## Helper lemmas -/

theorem itemOf_some_id {items : List AuctionItem} {iid : Nat} {item : AuctionItem}
    (h : itemOf items iid = some item) : item.id = iid := by
  unfold itemOf at h
  have hp := List.find?_some h
  simp only [beq_iff_eq] at hp
  exact hp

theorem run_validation_ok {items : List AuctionItem} {iid : Nat} {amt : ℚ}
    {item : AuctionItem} (h : run_validation items iid amt = .ok item) :
    0 < amt ∧ itemOf items iid = some item ∧ validateItem item amt = .ok () := by
  unfold run_validation validate_amount at h
  by_cases hle : amt ≤ 0
  · rw [if_pos hle] at h
    exact absurd h (by simp)
  · rw [if_neg hle] at h
    dsimp only at h
    unfold PlaceBidSerializer.validate at h
    cases hfind : itemOf items iid with
    | none =>
      rw [hfind] at h
      exact absurd h (by simp)
    | some it =>
      rw [hfind] at h
      dsimp only at h
      cases hval : validateItem it amt with
      | error e =>
        rw [hval] at h
        exact absurd h (by simp)
      | ok u =>
        rw [hval] at h
        simp only [Except.ok.injEq] at h
        subst h
        exact ⟨lt_of_not_le hle, rfl, by cases u; exact hval⟩

theorem validateItem_ok {item : AuctionItem} {amt : ℚ}
    (h : validateItem item amt = .ok ()) :
    item.status = ItemStatus.active ∧ item.auction.status = EventStatus.active ∧
      (if bidTruthy item.current_bid then item.current_bid.getD 0 * (105 / 100) ≤ amt
       else item.start_price ≤ amt) := by
  unfold validateItem at h
  by_cases h1 : item.status ≠ ItemStatus.active
  · rw [if_pos h1] at h; exact absurd h (by simp)
  · rw [if_neg h1] at h
    by_cases h2 : item.auction.status ≠ EventStatus.active
    · rw [if_pos h2] at h; exact absurd h (by simp)
    · rw [if_neg h2] at h
      refine ⟨not_not.mp h1, not_not.mp h2, ?_⟩
      by_cases h3 : bidTruthy item.current_bid = true
      · rw [if_pos h3] at h
        rw [if_pos h3]
        by_cases h4 : amt < item.current_bid.getD 0 * (105 / 100)
        · rw [if_pos h4] at h; exact absurd h (by simp)
        · exact not_lt.mp h4
      · rw [if_neg h3] at h
        rw [if_neg h3]
        by_cases h4 : amt < item.start_price
        · rw [if_pos h4] at h; exact absurd h (by simp)
        · exact not_lt.mp h4

theorem place_bid_of_error {now : Int} {db : DB} {u iid : Nat} {amt : ℚ} {e : BidError}
    (h : run_validation db.items iid amt = .error e) :
    place_bid now db u iid amt = (db, ⟨400, .error e⟩) := by
  unfold place_bid; rw [h]

theorem place_bid_of_ok {now : Int} {db : DB} {u iid : Nat} {amt : ℚ} {item : AuctionItem}
    (h : run_validation db.items iid amt = .ok item) :
    place_bid now db u iid amt =
      ({ items := db.items.map fun it =>
           if it.id == item.id then
             { item with current_bid := some amt, total_bids := item.total_bids + 1 }
           else it,
         bids := db.bids ++ [{ auction_item := item.id, user := u, amount := amt,
                               placed_at := now, is_winner := false, is_auto := false }] },
       ⟨201, .ok { auction_item := item.id, user := u, amount := amt,
                   placed_at := now, is_winner := false, is_auto := false }⟩) := by
  unfold place_bid; rw [h]

theorem itemOf_map_update {items : List AuctionItem} {iid : Nat} {item : AuctionItem}
    (upd : AuctionItem) (h : itemOf items iid = some item) (hid : upd.id = item.id) :
    itemOf (items.map fun it => if it.id == item.id then upd else it) iid = some upd := by
  have hitem : item.id = iid := itemOf_some_id h
  unfold itemOf at h ⊢
  rw [List.find?_map]
  have hpred : ((fun it : AuctionItem => it.id == iid) ∘
      fun it => if it.id == item.id then upd else it) =
      fun it : AuctionItem => it.id == iid := by
    funext it
    by_cases hc : it.id = item.id
    · simp [Function.comp, hc, hid, hitem]
    · simp [Function.comp, hc]
  rw [hpred, h]
  simp [hid]

theorem validateItem_active (item : AuctionItem) (amt : ℚ)
    (hstatus : item.status = ItemStatus.active)
    (hev : item.auction.status = EventStatus.active) :
    validateItem item amt =
      (if bidTruthy item.current_bid then
        (if amt < item.current_bid.getD 0 * (105 / 100) then .error .BID_TOO_LOW
         else .ok ())
       else (if amt < item.start_price then .error .BID_TOO_LOW else .ok ())) := by
  unfold validateItem
  rw [hstatus, hev]
  simp

theorem validateItem_auction_not_active_iff (item : AuctionItem) (amt : ℚ) :
    validateItem item amt = .error .AUCTION_NOT_ACTIVE ↔
      (item.status = ItemStatus.active ∧
        item.auction.status ≠ EventStatus.active) := by
  unfold validateItem
  by_cases h1 : item.status ≠ ItemStatus.active
  · rw [if_pos h1]
    simp [h1]
  · rw [if_neg h1]
    by_cases h2 : item.auction.status ≠ EventStatus.active
    · rw [if_pos h2]
      simp [not_not.mp h1, h2]
    · rw [if_neg h2]
      constructor
      · intro h
        by_cases hb : bidTruthy item.current_bid = true
        · rw [if_pos hb] at h
          dsimp only at h
          split_ifs at h <;> simp_all
        · rw [if_neg hb] at h
          split_ifs at h <;> simp_all
      · rintro ⟨-, hne⟩
        exact absurd (not_not.mp h2) hne

theorem acceptedAmounts_append (db : DB) (iid : Nat) (items2 : List AuctionItem)
    (bid : AuctionBid) (hb : bid.auction_item = iid) :
    acceptedAmounts ⟨items2, db.bids ++ [bid]⟩ iid =
      acceptedAmounts db iid ++ [bid.amount] := by
  simp [acceptedAmounts, bidsFor, List.filter_append, hb]

/-- The increment floor strictly exceeds a positive current bid. -/
theorem lt_of_increment_floor {c amt : ℚ} (hc : 0 < c)
    (hfloor : c * (105 / 100) ≤ amt) : c < amt :=
  calc c = c * 1 := (mul_one c).symm
    _ < c * (105 / 100) := by
        apply mul_lt_mul_of_pos_left (by norm_num) hc
    _ ≤ amt := hfloor

/-- If the invariant holds and a bid is accepted, the accepted amount
strictly exceeds the recorded `current_bid` (when one exists) and is at
least `start_price` (when none exists). -/
theorem accepted_amount_bound {db : DB} {iid : Nat} {amt : ℚ} {item : AuctionItem}
    (h : ItemInv db iid) (hfind : itemOf db.items iid = some item)
    (hval : validateItem item amt = .ok ()) :
    (item.current_bid = none → item.start_price ≤ amt) ∧
      (∀ c, item.current_bid = some c → c < amt) := by
  obtain ⟨hpos, _, hagg⟩ := h
  rw [hfind] at hagg
  dsimp only at hagg
  obtain ⟨_, _, hfloor⟩ := validateItem_ok hval
  constructor
  · intro hnone
    rw [hnone] at hfloor
    simpa [bidTruthy] using hfloor
  · intro c hc
    have hmem : c ∈ acceptedAmounts db iid :=
      List.mem_of_getLast?_eq_some (hagg.1.symm.trans hc)
    have hc0 : 0 < c := hpos c hmem
    have htr : bidTruthy item.current_bid = true := by
      rw [hc]; simp [bidTruthy]; exact ne_of_gt hc0
    rw [if_pos htr, hc] at hfloor
    exact lt_of_increment_floor hc0 (by simpa using hfloor)

/-- One successful or failed `place_bid` call preserves the per-item
bid-aggregate invariant. -/
theorem itemInv_place_bid (now : Int) (db : DB) (u iid : Nat) (amt : ℚ)
    (h : ItemInv db iid) : ItemInv (place_bid now db u iid amt).1 iid := by
  cases hv : run_validation db.items iid amt with
  | error e =>
    rw [place_bid_of_error hv]
    exact h
  | ok item =>
    obtain ⟨hamt, hfind, hval⟩ := run_validation_ok hv
    have hbound := accepted_amount_bound h hfind hval
    obtain ⟨hpos, hchain, hagg⟩ := h
    rw [hfind] at hagg
    dsimp only at hagg
    rw [place_bid_of_ok hv]
    have hid : item.id = iid := itemOf_some_id hfind
    have hacc2 :
        acceptedAmounts
          ⟨db.items.map fun it =>
              if it.id == item.id then
                { item with current_bid := some amt, total_bids := item.total_bids + 1 }
              else it,
            db.bids ++ [{ auction_item := item.id, user := u, amount := amt,
                          placed_at := now, is_winner := false, is_auto := false }]⟩ iid =
          acceptedAmounts db iid ++ [amt] :=
      acceptedAmounts_append db iid _ _ hid
    have hfind2 := itemOf_map_update
      { item with current_bid := some amt, total_bids := item.total_bids + 1 } hfind rfl
    refine ⟨?_, ?_, ?_⟩
    · rw [hacc2]
      intro a ha
      rcases List.mem_append.mp ha with hin | hin
      · exact hpos a hin
      · rw [List.mem_singleton.mp hin]; exact hamt
    · rw [hacc2]
      refine List.chain'_append.mpr ⟨hchain, List.chain'_singleton amt, ?_⟩
      intro x hx y hy
      have hyamt : y = amt := by simpa using hy.symm
      subst hyamt
      have hxlast : (acceptedAmounts db iid).getLast? = some x := hx
      have hcb : item.current_bid = some x := by rw [hagg.1, hxlast]
      exact hbound.2 x hcb
    · rw [hfind2]
      dsimp only
      rw [hacc2]
      exact ⟨(List.getLast?_concat _).symm, by rw [hagg.2]; simp⟩

/-- A whole sequence of bid placement requests against one item
preserves the invariant. -/
theorem itemInv_runBidsOn (now : Int) (iid : Nat) (db : DB)
    (reqs : List (Nat × ℚ)) (h : ItemInv db iid) :
    ItemInv (runBidsOn now iid db reqs) iid := by
  induction reqs generalizing db with
  | nil => exact h
  | cons r rest ih =>
    cases r with
    | mk u amt =>
      exact ih _ (itemInv_place_bid now db u iid amt h)

/-! ## Claim theorems -/

unseal Rat.mul Rat.inv in
/-- Claim C1, counterexample: an active item with `current_bid` recorded
as zero and a positive proposed amount of 100, which satisfies the
claim's non-null minimum `0 * 1.05`, is nonetheless rejected as too
low: the code's null test is a truthiness test and applies the
start-price floor (500,000) instead. -/
theorem zero_current_bid_cex :
    itemZeroBid.status = ItemStatus.active ∧
    itemZeroBid.auction.status = EventStatus.active ∧
    itemZeroBid.current_bid = some 0 ∧
    (0 : ℚ) < 100 ∧
    (0 : ℚ) * (105 / 100) ≤ 100 ∧
    validateItem itemZeroBid 100 = .error .BID_TOO_LOW :=
  ⟨rfl, rfl, rfl, by decide, by decide, by decide⟩

unseal Rat.mul Rat.inv in
/-- Claim C1 (amended): for every bid on an item whose own status and
whose event's status are active and with a positive proposed amount, if
the item's `current_bid` is null — or recorded as zero, since the null
test is a Python truthiness test — the bid is accepted iff
`amount ≥ start_price`; if `current_bid` is non-null and non-zero the
minimum is `current_bid * 1.05` and the bid is accepted iff it reaches
that minimum, with a lower bid rejected as `BID_TOO_LOW`.  In
particular, with `current_bid = 1,000,000` a bid of 1,050,000 is
accepted and 1,049,999 is rejected. -/
theorem minimum_bid_rule (item : AuctionItem) (amt : ℚ)
    (hstatus : item.status = ItemStatus.active)
    (hev : item.auction.status = EventStatus.active)
    (hamt : 0 < amt) :
    (item.current_bid = none →
      ((validateItem item amt = .ok () ↔ item.start_price ≤ amt) ∧
        (amt < item.start_price → validateItem item amt = .error .BID_TOO_LOW))) ∧
    (item.current_bid = some 0 →
      ((validateItem item amt = .ok () ↔ item.start_price ≤ amt) ∧
        (amt < item.start_price → validateItem item amt = .error .BID_TOO_LOW))) ∧
    (∀ c, item.current_bid = some c → c ≠ 0 →
      ((validateItem item amt = .ok () ↔ c * (105 / 100) ≤ amt) ∧
        (amt < c * (105 / 100) → validateItem item amt = .error .BID_TOO_LOW))) ∧
    validateItem itemStanding 1050000 = .ok () ∧
    validateItem itemStanding 1049999 = .error .BID_TOO_LOW := by
  refine ⟨?_, ?_, ?_, by decide, by decide⟩
  · intro hnone
    rw [validateItem_active item amt hstatus hev, hnone]
    have hfalse : bidTruthy none = false := rfl
    rw [hfalse]
    simp only [Bool.false_eq_true, if_false]
    constructor
    · constructor
      · by_cases hlt : amt < item.start_price
        · rw [if_pos hlt]
          intro hcontr
          exact absurd hcontr (by simp)
        · rw [if_neg hlt]
          intro _
          exact not_lt.mp hlt
      · intro hle
        rw [if_neg (not_lt.mpr hle)]
    · intro hlt
      rw [if_pos hlt]
  · intro hzero
    rw [validateItem_active item amt hstatus hev, hzero]
    have hfalse : bidTruthy (some 0) = false := by simp [bidTruthy]
    rw [hfalse]
    simp only [Bool.false_eq_true, if_false]
    constructor
    · constructor
      · by_cases hlt : amt < item.start_price
        · rw [if_pos hlt]
          intro hcontr
          exact absurd hcontr (by simp)
        · rw [if_neg hlt]
          intro _
          exact not_lt.mp hlt
      · intro hle
        rw [if_neg (not_lt.mpr hle)]
    · intro hlt
      rw [if_pos hlt]
  · intro c hc hc0
    rw [validateItem_active item amt hstatus hev, hc]
    have htr : bidTruthy (some c) = true := by
      simp [bidTruthy, hc0]
    rw [htr]
    simp only [if_true, Option.getD_some]
    constructor
    · constructor
      · by_cases hlt : amt < c * (105 / 100)
        · rw [if_pos hlt]
          intro hcontr
          exact absurd hcontr (by simp)
        · rw [if_neg hlt]
          intro _
          exact not_lt.mp hlt
      · intro hle
        rw [if_neg (not_lt.mpr hle)]
    · intro hlt
      rw [if_pos hlt]

unseal Rat.mul Rat.inv in
/-- Witness for the amended claim C1, applied at the standing item with
its bid of 1,000,000 and the proposed amount 1,050,000. -/
theorem minimum_bid_rule_witness :
    validateItem itemStanding 1050000 = .ok () :=
  ((minimum_bid_rule itemStanding 1050000 rfl rfl (by decide)).2.2.2).1

unseal Rat.mul Rat.inv in
/-- Claim C4, counterexample: (a) when the item and the event are both
inactive, the surfaced rejection is `ITEM_NOT_ACTIVE`, not
`AUCTION_NOT_ACTIVE` — the item-status check runs before the
event-status check; (b) validation never consults the clock: a bid
placed at time 1000, far past the event's end time 100, is accepted
with 201 rather than rejected with `AUCTION_NOT_ACTIVE`. -/
theorem auction_not_active_cex :
    run_validation [itemBothInactive] 7 600000 = .error .ITEM_NOT_ACTIVE ∧
    BidError.ITEM_NOT_ACTIVE ≠ BidError.AUCTION_NOT_ACTIVE ∧
    (place_bid 1000 dbStanding 9 7 1050000).2 =
      ⟨201, .ok { auction_item := 7, user := 9, amount := 1050000,
                  placed_at := 1000, is_winner := false, is_auto := false }⟩ ∧
    itemStanding.auction.end_datetime < 1000 :=
  ⟨by decide, by decide, by decide, by decide⟩

/-- Claim C4 (amended): validation rejects with `AUCTION_NOT_ACTIVE`
exactly when the amount is positive, the item exists and is itself
active, and the parent event's status is not active; the current time
and the event's datetime window are never consulted, and the
item-status check precedes the event-status check, so when both fail
the surfaced reason is `ITEM_NOT_ACTIVE`. -/
theorem auction_not_active_characterization (items : List AuctionItem)
    (iid : Nat) (amt : ℚ) :
    run_validation items iid amt = .error .AUCTION_NOT_ACTIVE ↔
      (0 < amt ∧ ∃ item, itemOf items iid = some item ∧
        item.status = ItemStatus.active ∧
        item.auction.status ≠ EventStatus.active) := by
  unfold run_validation validate_amount
  by_cases hle : amt ≤ 0
  · rw [if_pos hle]
    simp [not_lt.mpr hle]
  · rw [if_neg hle]
    dsimp only
    unfold PlaceBidSerializer.validate
    cases hfind : itemOf items iid with
    | none =>
      dsimp only
      simp
    | some item =>
      dsimp only
      cases hval : validateItem item amt with
      | error e =>
        dsimp only
        simp only [Except.error.injEq, Option.some.injEq]
        constructor
        · intro he
          subst he
          exact ⟨lt_of_not_le hle, item, rfl,
            (validateItem_auction_not_active_iff item amt).mp hval⟩
        · rintro ⟨-, it, hit, hact, hne⟩
          subst hit
          have h2 := (validateItem_auction_not_active_iff item amt).mpr ⟨hact, hne⟩
          rw [hval] at h2
          injection h2
      | ok u =>
        dsimp only
        constructor
        · intro hcontr
          exact absurd hcontr (by simp)
        · rintro ⟨-, it, hit, hact, hne⟩
          simp only [Option.some.injEq] at hit
          subst hit
          have h2 := (validateItem_auction_not_active_iff item amt).mpr ⟨hact, hne⟩
          rw [hval] at h2
          exact absurd h2 (by simp)

/-- Witness for the amended claim C4: an active item inside an ended
event draws `AUCTION_NOT_ACTIVE`. -/
theorem auction_not_active_characterization_witness :
    run_validation [itemEventInactive] 7 600000 = .error .AUCTION_NOT_ACTIVE :=
  (auction_not_active_characterization [itemEventInactive] 7 600000).mpr
    ⟨by decide, itemEventInactive, by decide, rfl, by decide⟩

/-- Claim C5 (confirmed): every `place_bid` call rejected by validation
writes no state — the item table and the bid table are returned
unchanged — and the specific rejection reason is surfaced unchanged as
the body of a 400 response. -/
theorem rejection_atomicity (now : Int) (db : DB) (u iid : Nat) (amt : ℚ)
    (e : BidError) (h : run_validation db.items iid amt = .error e) :
    (place_bid now db u iid amt).1 = db ∧
    (place_bid now db u iid amt).1.items = db.items ∧
    (place_bid now db u iid amt).1.bids = db.bids ∧
    (place_bid now db u iid amt).2 = ⟨400, .error e⟩ := by
  rw [place_bid_of_error h]
  exact ⟨rfl, rfl, rfl, rfl⟩

/-- Witness for claim C5: a non-positive amount is rejected as
`INVALID_AMOUNT` and the state is unchanged. -/
theorem rejection_atomicity_witness :
    (place_bid 50 dbStanding 9 7 (-5)).1 = dbStanding :=
  (rejection_atomicity 50 dbStanding 9 7 (-5) .INVALID_AMOUNT (by decide)).1

/-- Claim C6, counterexample: a bid on a nonexistent item id is rejected
through the serializer's ValidationError channel with HTTP 400 — the
same status class as the validation failures — not with a 404. -/
theorem item_not_found_cex :
    place_bid 50 dbStanding 9 99 600000 =
      (dbStanding, ⟨400, .error .ITEM_NOT_FOUND⟩) ∧
    (400 : Nat) ≠ 404 :=
  ⟨by decide, by decide⟩

/-- Claim C6 (amended): a `place_bid` call whose `auction_item_id`
references no existing item fails with the distinct reason
`ITEM_NOT_FOUND`, raised as a serializer ValidationError and therefore
surfaced as a 400 response like the other validation failures (not as a
404); no state is written and nothing is retried. -/
theorem item_not_found_behavior (now : Int) (db : DB) (u iid : Nat) (amt : ℚ)
    (hmiss : itemOf db.items iid = none) (hamt : 0 < amt) :
    place_bid now db u iid amt = (db, ⟨400, .error .ITEM_NOT_FOUND⟩) := by
  have hv : run_validation db.items iid amt = .error .ITEM_NOT_FOUND := by
    unfold run_validation validate_amount
    rw [if_neg (not_le.mpr hamt)]
    dsimp only
    unfold PlaceBidSerializer.validate
    rw [hmiss]
  exact place_bid_of_error hv

/-- Witness for the amended claim C6 at a missing item id. -/
theorem item_not_found_behavior_witness :
    place_bid 50 dbStanding 9 99 600000 =
      (dbStanding, ⟨400, .error .ITEM_NOT_FOUND⟩) :=
  item_not_found_behavior 50 dbStanding 9 99 600000 (by decide) (by decide)

/-- Claim C9 (confirmed): an item whose `current_bid` equals zero is
validated exactly like an item whose `current_bid` is null — the null
test is a truthiness test — so on an active item and event the minimum
acceptable amount is the start price, not zero times the increment
factor. -/
theorem zero_current_bid_floor (item : AuctionItem) (amt : ℚ)
    (h : item.current_bid = some 0) :
    validateItem item amt = validateItem { item with current_bid := none } amt ∧
    (item.status = ItemStatus.active → item.auction.status = EventStatus.active →
      (validateItem item amt = .ok () ↔ item.start_price ≤ amt)) := by
  constructor
  · unfold validateItem
    simp [h, bidTruthy]
  · intro hstatus hev
    rw [validateItem_active item amt hstatus hev, h]
    have hfalse : bidTruthy (some 0) = false := by simp [bidTruthy]
    rw [hfalse]
    simp only [Bool.false_eq_true, if_false]
    constructor
    · by_cases hlt : amt < item.start_price
      · rw [if_pos hlt]
        intro hcontr
        exact absurd hcontr (by simp)
      · rw [if_neg hlt]
        intro _
        exact not_lt.mp hlt
    · intro hle
      rw [if_neg (not_lt.mpr hle)]

/-- Witness for claim C9 at the zero-bid fixture. -/
theorem zero_current_bid_floor_witness :
    validateItem itemZeroBid 600000 =
      validateItem { itemZeroBid with current_bid := none } 600000 :=
  (zero_current_bid_floor itemZeroBid 600000 rfl).1

/-- Claim C2 (confirmed): every `place_bid` call that passes validation
answers 201 with the serialized accepted bid, appends exactly that one
new `AuctionBid` row carrying the item, the requesting user and the
amount, and updates the item so that `current_bid` equals the amount
and `total_bids` grows by exactly one, all other fields unchanged;
items with a different id are untouched. -/
theorem place_bid_success_postcondition (now : Int) (db : DB) (u iid : Nat)
    (amt : ℚ) (item : AuctionItem)
    (h : run_validation db.items iid amt = .ok item) :
    (place_bid now db u iid amt).2 =
      ⟨201, .ok { auction_item := item.id, user := u, amount := amt,
                  placed_at := now, is_winner := false, is_auto := false }⟩ ∧
    (place_bid now db u iid amt).1.bids =
      db.bids ++ [{ auction_item := item.id, user := u, amount := amt,
                    placed_at := now, is_winner := false, is_auto := false }] ∧
    itemOf (place_bid now db u iid amt).1.items iid =
      some { item with current_bid := some amt, total_bids := item.total_bids + 1 } ∧
    ∀ it ∈ db.items, it.id ≠ item.id → it ∈ (place_bid now db u iid amt).1.items := by
  obtain ⟨-, hfind, -⟩ := run_validation_ok h
  rw [place_bid_of_ok h]
  refine ⟨rfl, rfl, ?_, ?_⟩
  · exact itemOf_map_update _ hfind rfl
  · intro it hit hne
    have hf : (fun x : AuctionItem =>
        if x.id == item.id then
          { item with current_bid := some amt, total_bids := item.total_bids + 1 }
        else x) it = it := by
      simp [hne]
    have hmem := List.mem_map_of_mem
      (fun x : AuctionItem =>
        if x.id == item.id then
          { item with current_bid := some amt, total_bids := item.total_bids + 1 }
        else x) hit
    rwa [hf] at hmem

unseal Rat.mul Rat.inv in
/-- Witness for claim C2: the standing item accepts 1,050,000 with a
201 response carrying the serialized bid. -/
theorem place_bid_success_postcondition_witness :
    (place_bid 50 dbStanding 9 7 1050000).2 =
      ⟨201, .ok { auction_item := itemStanding.id, user := 9, amount := 1050000,
                  placed_at := 50, is_winner := false, is_auto := false }⟩ :=
  (place_bid_success_postcondition 50 dbStanding 9 7 1050000 itemStanding
    (by decide)).1

/-- Claim C3 (confirmed): under sequential processing of `place_bid`
requests against one item, the per-item invariant is preserved: the
accepted amounts are strictly increasing in acceptance order,
`current_bid` (when non-null) equals the amount of the most recently
accepted bid, and `total_bids` counts the accepted bids; moreover no
bid is accepted at or below the recorded `current_bid`, nor below
`start_price` when it is the first bid. -/
theorem bid_monotonicity_invariant (now : Int) (iid : Nat) (db : DB)
    (reqs : List (Nat × ℚ)) (h : ItemInv db iid) :
    ItemInv (runBidsOn now iid db reqs) iid ∧
    (∀ db1 amt item, ItemInv db1 iid →
      run_validation db1.items iid amt = .ok item →
      (item.current_bid = none → item.start_price ≤ amt) ∧
      (∀ c, item.current_bid = some c → c < amt)) := by
  refine ⟨itemInv_runBidsOn now iid db reqs h, ?_⟩
  intro db1 amt item h1 hv
  obtain ⟨-, hfind, hval⟩ := run_validation_ok hv
  exact accepted_amount_bound h1 hfind hval

unseal Rat.mul Rat.inv in
/-- Witness for claim C3: two bids processed against the fresh item. -/
theorem bid_monotonicity_invariant_witness :
    ItemInv (runBidsOn 50 7 dbFresh [(9, 500000), (10, 600000)]) 7 :=
  (bid_monotonicity_invariant 50 7 dbFresh [(9, 500000), (10, 600000)]
    (by decide)).1

/-- Claim C7, counterexample: the owning gallery's owner, when not
staff, receives 403 from the endpoint — the `bids` action falls through
to the `IsAdminUser` permission — instead of the full bid history the
claim promises, even though recorded bids exist. -/
theorem bids_visibility_cex :
    bids_endpoint itemWithGallery bidsFixture galleryOwnerUser = .forbidden ∧
    galleryOwnerUser.is_staff = false ∧
    itemWithGallery.auction.gallery = some ⟨5⟩ ∧
    galleryOwnerUser.id = 5 ∧
    bidsFor bidsFixture itemWithGallery.id ≠ [] :=
  ⟨by decide, rfl, rfl, rfl, by decide⟩

/-- Claim C7 (amended): the `bids` action is admin-only, so a staff
requester receives the item's full bid history ordered by amount
descending (a permutation of the recorded bids, pairwise sorted), while
every non-staff requester — including the owning gallery's owner —
receives 403 and no bids; the handler's restricted
winning-bid-plus-own-bids branch is unreachable through the
endpoint. -/
theorem bids_visibility (item : AuctionItem) (bids : List AuctionBid) (u : User) :
    (u.is_staff = true →
      bids_endpoint item bids u = .ok (sortByAmountDesc (bidsFor bids item.id)) ∧
      (sortByAmountDesc (bidsFor bids item.id)).Perm (bidsFor bids item.id) ∧
      (sortByAmountDesc (bidsFor bids item.id)).Pairwise
        (fun a b => b.amount ≤ a.amount)) ∧
    (u.is_staff = false → bids_endpoint item bids u = .forbidden) := by
  constructor
  · intro hstaff
    refine ⟨?_, ?_, ?_⟩
    · unfold bids_endpoint bids_action
      rw [hstaff]
      simp
    · unfold sortByAmountDesc
      exact List.mergeSort_perm _ _
    · unfold sortByAmountDesc
      have hp := @List.sorted_mergeSort AuctionBid
        (fun a b : AuctionBid => decide (b.amount ≤ a.amount))
        (fun a b c h1 h2 => by
          simp only [decide_eq_true_eq] at h1 h2 ⊢
          exact le_trans h2 h1)
        (fun a b => by
          simp only [Bool.or_eq_true, decide_eq_true_eq]
          exact le_total _ _)
        (bidsFor bids item.id)
      exact hp.imp (fun hle => by simpa using hle)
  · intro hns
    unfold bids_endpoint
    rw [hns]
    simp

/-- Witness for the amended claim C7 at a staff requester. -/
theorem bids_visibility_witness :
    bids_endpoint itemWithGallery bidsFixture staffUser =
      .ok (sortByAmountDesc (bidsFor bidsFixture itemWithGallery.id)) :=
  ((bids_visibility itemWithGallery bidsFixture staffUser).1 rfl).1

unseal Rat.mul Rat.inv in
/-- Claim C8 (code bug): the endpoint takes no lock and opens no
transaction, so two handlers can both read-and-validate against the
same `current_bid` of 1,800,000 (minimum 1,890,000) and both commit.
In the interleaving read₁ read₂ write₂ write₁ both bids are accepted,
the final `current_bid` is 2,000,000 — below the previously committed
2,100,000, a lost update — and `total_bids` lands at 4 although three
prior and two new accepted bids call for 5. -/
theorem lost_update_interleaving :
    readValidate db8 11 7 2000000 = some ⟨item8, 11, 2000000⟩ ∧
    readValidate db8 12 7 2100000 = some ⟨item8, 12, 2100000⟩ ∧
    itemOf (commitBid 61 (commitBid 60 db8 ⟨item8, 12, 2100000⟩)
        ⟨item8, 11, 2000000⟩).items 7 =
      some { item8 with current_bid := some 2000000, total_bids := 4 } ∧
    (commitBid 61 (commitBid 60 db8 ⟨item8, 12, 2100000⟩)
        ⟨item8, 11, 2000000⟩).bids.map (fun b => b.amount) =
      [2100000, 2000000] ∧
    (2000000 : ℚ) < 2100000 ∧
    item8.total_bids = 3 :=
  ⟨by decide, by decide, by decide, by decide, by decide, rfl⟩

/-- Claim C10 (confirmed): with a null gallery the `bids` action still
takes its restricted branch for a non-staff requester — the guard
`item.auction.gallery and ...` never dereferences the absent gallery —
while the item detail serializer's `get_bids`, whose owner comparison
dereferences `gallery.owner` unguarded, fails (returns `none`, the
`AttributeError`) for an authenticated non-staff requester and is total
whenever the gallery is present. -/
theorem null_gallery_handling (item : AuctionItem) (bids : List AuctionBid)
    (u : User) :
    (u.is_staff = false → item.auction.gallery = none →
      bids_action item bids u = restrictedBids item bids u) ∧
    (u.is_staff = false → u.is_authenticated = true →
      item.auction.gallery = none → get_bids item bids (some u) = none) ∧
    (∀ g, item.auction.gallery = some g →
      (get_bids item bids (some u)).isSome = true) := by
  refine ⟨?_, ?_, ?_⟩
  · intro hns hg
    unfold bids_action
    rw [hns, hg]
    simp
  · intro hns hauth hg
    unfold get_bids
    dsimp only
    rw [hns, hg]
    simp
  · intro g hg
    unfold get_bids
    dsimp only
    rw [hg]
    by_cases hs : u.is_staff = true
    · rw [hs]
      simp
    · rw [Bool.not_eq_true] at hs
      rw [hs]
      simp only [Bool.false_eq_true, if_false]
      split_ifs <;> simp

/-- Witness for claim C10: an ordinary bidder on the gallery-less
standing item gets the restricted list from the handler. -/
theorem null_gallery_handling_witness :
    bids_action itemStanding bidsFixture bidderUser =
      restrictedBids itemStanding bidsFixture bidderUser :=
  (null_gallery_handling itemStanding bidsFixture bidderUser).1 rfl rfl

end Ma2ta
